import Mathlib

/-!
Verification of the reminder/nagging scheduling core of a Telegram task
assistant.  The TypeScript sources are shallowly embedded as pure Lean
functions: handlers become state-transition functions over an explicit chat
state, external calls (message sending, scheduler publications,
cancellations) are recorded as an effect list, timestamps are integers in
milliseconds, and the deployment timezone is modelled as a fixed UTC offset
in milliseconds.
-/

namespace TgBot

/-! ## Task data model (src/lib/types.ts, Task; part_000 schema adds isDayOnly) -/

inductive TaskStatus
  | pending
  | completed
deriving DecidableEq, Repr

structure Task where
  id : String
  chatId : Int
  content : String
  isImportant : Bool
  isDayOnly : Bool
  naggingLevel : Nat
  nextReminder : Int
  qstashMessageId : Option Nat
  createdAt : Int
  status : TaskStatus
deriving DecidableEq, Repr

/-! ## calculateNextNagDelay (src/lib/redis.ts lines 751-763; identical copy
at lines 1856-1868).  The base delays are in minutes; important tasks halve
the ladder; the source applies Math.round to the product, which we embed as
rational multiplication followed by round (half rounds up, as in JS). -/

def nagBaseDelays : List Nat := [60, 120, 240, 360, 480]

def calculateNextNagDelay (naggingLevel : Nat) (isImportant : Bool) : Int :=
  let multiplier : ℚ := if isImportant then 1/2 else 1
  let delay := nagBaseDelays.getD (min naggingLevel (nagBaseDelays.length - 1)) 0
  round ((delay : ℚ) * multiplier)

/-! ## Signature verification (part_005 lines 224-252) and the webhook gate
(src/api/notify.ts lines 226-240).  Environment variables are modelled as
Option String; the JS falsiness test on a string treats both undefined and
the empty string as false.  The cryptographic outcome of Receiver.verify is
abstracted as a boolean parameter. -/

def strFalsy (s : Option String) : Bool := s.getD "" == ""

def verifySignature (currentSigningKey nextSigningKey : Option String)
    (receiverAccepts : Bool) : Bool :=
  if strFalsy currentSigningKey || strFalsy nextSigningKey then
    true
  else
    receiverAccepts

inductive GateResult
  | processed (verificationAttempted : Bool)
  | rejected
deriving DecidableEq, Repr

def notifyGate (signatureHeader currentSigningKey nextSigningKey : Option String)
    (receiverAccepts : Bool) : GateResult :=
  if strFalsy signatureHeader then
    .processed false
  else if verifySignature currentSigningKey nextSigningKey receiverAccepts then
    .processed true
  else
    .rejected

/-! ## Notification campaign engine (src/api/notify.ts lines 282-439)

The webhook handlers are embedded as pure state-transition functions on the
state of one chat: the task record stored under the delivered
`(chatId, taskId)` key, the chat's PendingFollowUp record, and a counter
minting fresh external message ids.  External calls are recorded in an
effect list in execution order.  Message texts are produced by an external
LLM collaborator, so messages are modelled by constructors tagging which
generator was invoked and with which arguments. -/

structure PendingFollowUp where
  taskId : String
  content : String
  qstashMessageId : Option Nat
deriving DecidableEq, Repr

structure ChatState where
  task? : Option Task
  pendingFollowUp : Option PendingFollowUp
  nextId : Nat
deriving DecidableEq, Repr

inductive MsgKind
  | reminderText (content : String)
  | nagText (content : String) (level : Nat)
  | finalNagText (content : String)
  | followUpText (content : String)
deriving DecidableEq, Repr

inductive Effect
  | sendMsg (chatId : Int) (msg : MsgKind)
  | scheduleCallback (chatId : Int) (taskId : String) (delayMinutes : Int)
      (isNag : Bool) (msgId : Nat)
  | scheduleFollowUpCall (chatId : Int) (taskId : String) (msgId : Nat)
  | cancelScheduled (msgId : Nat)
deriving DecidableEq, Repr

/-- Modelled from the spec: the redis helper `setPendingFollowUp(chatId,
taskId, content, qstashMessageId)` of the current persistence layer is not
among the provided sources (only its callers are); per the spec data model
it stores the ephemeral record for the chat. -/
def setPendingFollowUp (st : ChatState) (taskId content : String)
    (msgId : Nat) : ChatState :=
  { st with pendingFollowUp := some ⟨taskId, content, some msgId⟩ }

/-- Modelled from the spec: `getPendingFollowUp(chatId)` reads the chat's
PendingFollowUp record, absent if none or expired. -/
def getPendingFollowUp (st : ChatState) : Option PendingFollowUp :=
  st.pendingFollowUp

/-- Modelled from the spec: `clearPendingFollowUp(chatId)` deletes the
record and returns what was stored (its caller in part_002 reads the
returned record's qstashMessageId). -/
def clearPendingFollowUp (st : ChatState) : ChatState × Option PendingFollowUp :=
  ({ st with pendingFollowUp := none }, st.pendingFollowUp)

/-- handleReminder (src/api/notify.ts lines 282-323).  The follow-up
scheduling sits in a try/catch in the source, so its success is a boolean
parameter; the nag scheduling is not guarded. -/
def handleReminder (now : Int) (schedFollowUpOk : Bool) (chatId : Int)
    (taskId : String) (st : ChatState) : ChatState × List Effect :=
  match st.task? with
  | none => (st, [])
  | some task =>
    if task.status = .completed then
      (st, [])
    else
      let sendRem : List Effect := [.sendMsg chatId (.reminderText task.content)]
      let stepFU : ChatState × List Effect :=
        if schedFollowUpOk then
          let fid := st.nextId
          (setPendingFollowUp { st with nextId := st.nextId + 1 } taskId task.content fid,
           [.scheduleFollowUpCall chatId taskId fid])
        else
          (st, [])
      let st1 := stepFU.1
      if task.isImportant then
        let nextDelay := calculateNextNagDelay 0 true
        let mid := st1.nextId
        let task' := { task with
          naggingLevel := 1
          nextReminder := now + nextDelay * 60000
          qstashMessageId := some mid }
        ({ st1 with task? := some task', nextId := st1.nextId + 1 },
         sendRem ++ stepFU.2 ++ [.scheduleCallback chatId taskId nextDelay true mid])
      else
        (st1, sendRem ++ stepFU.2)

/-- handleNag (src/api/notify.ts lines 325-363). -/
def handleNag (now : Int) (chatId : Int) (taskId : String) (st : ChatState) :
    ChatState × List Effect :=
  match st.task? with
  | none => (st, [])
  | some task =>
    if task.status = .completed then
      (st, [])
    else
      let sendNag : List Effect := [.sendMsg chatId (.nagText task.content task.naggingLevel)]
      let nextDelay := calculateNextNagDelay task.naggingLevel task.isImportant
      if task.naggingLevel < 5 then
        let mid := st.nextId
        let task' := { task with
          naggingLevel := task.naggingLevel + 1
          nextReminder := now + nextDelay * 60000
          qstashMessageId := some mid }
        ({ st with task? := some task', nextId := st.nextId + 1 },
         sendNag ++ [.scheduleCallback chatId taskId nextDelay true mid])
      else
        (st, sendNag ++ [.sendMsg chatId (.finalNagText task.content)])

/-- handleFollowUp (src/api/notify.ts lines 411-439). -/
def handleFollowUp (chatId : Int) (taskId : String) (st : ChatState) :
    ChatState × List Effect :=
  match getPendingFollowUp st with
  | none => (st, [])
  | some pfu =>
    if pfu.taskId ≠ taskId then
      (st, [])
    else
      match st.task? with
      | none => ((clearPendingFollowUp st).1, [])
      | some task =>
        if task.status = .completed then
          ((clearPendingFollowUp st).1, [])
        else
          ((clearPendingFollowUp st).1,
           [.sendMsg chatId (.followUpText task.content)])

/-- Inbound-message prefix (part_002 lines 130-134): before any intent
handling, the webhook clears the chat's PendingFollowUp and cancels its
outstanding external callback if one is recorded. -/
def userMessageFollowUpCancel (st : ChatState) : ChatState × List Effect :=
  let cleared := clearPendingFollowUp st
  match cleared.2 with
  | some p =>
    match p.qstashMessageId with
    | some mid => (cleared.1, [.cancelScheduled mid])
    | none => (cleared.1, [])
  | none => (cleared.1, [])

inductive NotifyType
  | reminder
  | nag
  | followUp
deriving DecidableEq, Repr

/-- The dispatching webhook handler (src/api/notify.ts lines 240-280): runs
the handler for the payload type and responds HTTP 200. -/
def notifyHandler (now : Int) (schedFollowUpOk : Bool) (ty : NotifyType)
    (chatId : Int) (taskId : String) (st : ChatState) :
    ChatState × List Effect × Nat :=
  match ty with
  | .reminder =>
    let r := handleReminder now schedFollowUpOk chatId taskId st
    (r.1, r.2, 200)
  | .nag =>
    let r := handleNag now chatId taskId st
    (r.1, r.2, 200)
  | .followUp =>
    let r := handleFollowUp chatId taskId st
    (r.1, r.2, 200)

/-- True when the stored record for the delivered key is absent or already
completed (the only non-pending status). -/
def noActionableTask : Option Task → Bool
  | none => true
  | some t => t.status == .completed

def taskDoneC1 : Task :=
  ⟨"t1", 1, "buy milk", true, false, 2, 0, some 5, 0, .completed⟩

def stC1 : ChatState := ⟨some taskDoneC1, none, 3⟩

def taskCapC3 : Task :=
  ⟨"t3", 2, "call mom", true, false, 5, 0, some 9, 0, .pending⟩

def stC3 : ChatState := ⟨some taskCapC3, none, 0⟩

def taskImpC10 : Task :=
  ⟨"t10", 4, "send report", true, false, 3, 50, some 8, 0, .pending⟩

def stC10 : ChatState := ⟨some taskImpC10, none, 6⟩

def taskDoneC5 : Task :=
  ⟨"t1", 1, "water plants", false, false, 0, 0, none, 0, .completed⟩

def stC5 : ChatState := ⟨some taskDoneC5, some ⟨"t1", "water plants", some 7⟩, 0⟩

def taskPendC5 : Task :=
  ⟨"t1", 1, "water plants", false, false, 0, 0, none, 0, .pending⟩

def stC5b : ChatState := ⟨some taskPendC5, some ⟨"t1", "water plants", some 7⟩, 0⟩

/-! ## Time normalizer: normalizeToNoon (part_002 lines 1270-1300)

The deployment timezone is modelled as a fixed UTC offset `o` in
milliseconds (the source consults the IANA database through Intl; a fixed
offset is the fragment of that behavior the claims exercise — the default
America/Los_Angeles zone has offset -8h or -7h at any given instant).  The
source extracts the local calendar date of the rough target, takes
Date.UTC of that date (the epoch-day boundary), and scans 36 hourly
candidates for the one whose local hour is 12. -/

def localDay (o t : Int) : Int := (t + o) / 86400000

def localHour (o t : Int) : Int := ((t + o) / 3600000) % 24

def normalizeToNoon (o now delayMinutes : Int) : Int :=
  let roughTargetTime := now + delayMinutes * 60000
  let day := localDay o roughTargetTime
  let baseMidnightUTC := day * 86400000
  match (List.range 36).find?
      (fun (hourOffset : Nat) =>
        localHour o (baseMidnightUTC + (hourOffset : Int) * 3600000) == 12) with
  | some hourOffset => baseMidnightUTC + (hourOffset : Int) * 3600000
  | none => roughTargetTime

/-! ## Reminder creation flow: handleReminders (part_002 lines 339-424)

Creation runs against the chat's task store, modelled as the list of task
records plus counters minting task ids and external message ids.  The
response text is produced by the external composer from a structured
action context, so the model returns that context; display formatting of
time strings is elided. -/

structure ReminderReq where
  task : String
  delayMinutes : Int
  isImportant : Bool
  isDayOnly : Option Bool
deriving DecidableEq, Repr

structure CreatedEntry where
  task : String
  effectiveDelayMinutes : Int
  isImportant : Bool
  isDayOnly : Bool
deriving DecidableEq, Repr

inductive ActionCtx
  | reminderCreated (e : CreatedEntry)
  | multipleRemindersCreated (es : List CreatedEntry)
deriving DecidableEq, Repr

structure CreationState where
  store : List Task
  nextTaskNum : Nat
  nextMsgId : Nat
deriving DecidableEq, Repr

/-- Modelled from the spec: the five-argument
`createTask(chatId, content, isImportant, delayMinutes, isDayOnly)` of the
current persistence layer is not among the provided sources (only its
callers and two older four-argument copies are); per the spec it allocates
an id, stores naggingLevel 0, nextReminder now plus the delay, pending
status and the day-only flag, with no qstashMessageId. -/
def createTask (now chatId : Int) (content : String) (isImportant : Bool)
    (delayMinutes : Int) (isDayOnly : Bool) (cs : CreationState) :
    Task × CreationState :=
  let id := "t" ++ toString cs.nextTaskNum
  let task : Task := ⟨id, chatId, content, isImportant, isDayOnly, 0,
    now + delayMinutes * 60000, none, now, .pending⟩
  (task, { cs with store := cs.store ++ [task], nextTaskNum := cs.nextTaskNum + 1 })

/-- updateTask (src/lib/redis.ts lines 65-68): replaces the record stored
under the task's key. -/
def updateTask (store : List Task) (task : Task) : List Task :=
  store.map (fun t => if t.id = task.id then task else t)

/-- JS Math.round of an integer quotient, as used for the day-only
effective delay. -/
def jsRound (num den : Int) : Int := round ((num : ℚ) / (den : ℚ))

/-- One iteration of the loop in handleReminders (part_002 lines 356-399):
day-only delays are normalized to noon, the task is persisted, and for
non-day-only tasks a one-shot callback is scheduled inside a try/catch
whose failure is only logged — schedOk false models the scheduler call
throwing. -/
def processReminder (now o : Int) (schedOk : Bool) (chatId : Int)
    (r : ReminderReq) (cs : CreationState) :
    CreationState × List Effect × CreatedEntry :=
  let effectiveDelayMinutes :=
    if r.isDayOnly.getD false then
      jsRound (normalizeToNoon o now r.delayMinutes - now) 60000
    else
      r.delayMinutes
  let tc := createTask now chatId r.task r.isImportant effectiveDelayMinutes
    (r.isDayOnly.getD false) cs
  let task := tc.1
  let cs1 := tc.2
  let entry : CreatedEntry :=
    ⟨r.task, effectiveDelayMinutes, r.isImportant, r.isDayOnly.getD false⟩
  if ¬ task.isDayOnly then
    if schedOk then
      let mid := cs1.nextMsgId
      let task' := { task with qstashMessageId := some mid }
      ({ cs1 with store := updateTask cs1.store task', nextMsgId := cs1.nextMsgId + 1 },
       [.scheduleCallback chatId task.id effectiveDelayMinutes false mid],
       entry)
    else
      (cs1, [], entry)
  else
    (cs1, [], entry)

def handleRemindersGo (now o : Int) (schedOk : Bool) (chatId : Int) :
    List ReminderReq → CreationState →
    CreationState × List Effect × List CreatedEntry
  | [], cs => (cs, [], [])
  | r :: rs, cs =>
    let step := processReminder now o schedOk chatId r cs
    let rest := handleRemindersGo now o schedOk chatId rs step.1
    (rest.1, step.2.1 ++ rest.2.1, step.2.2 :: rest.2.2)

/-- handleReminders (part_002 lines 339-424): processes each requested
reminder and reports a single-creation or multi-creation action context. -/
def handleReminders (now o : Int) (schedOk : Bool) (chatId : Int)
    (reminders : List ReminderReq) (cs : CreationState) :
    CreationState × List Effect × ActionCtx :=
  let run := handleRemindersGo now o schedOk chatId reminders cs
  let ctx : ActionCtx :=
    match run.2.2 with
    | [e] => .reminderCreated e
    | es => .multipleRemindersCreated es
  (run.1, run.2.1, ctx)

def reqDayOnlyC4 : ReminderReq := ⟨"water garden", 2880, false, some true⟩

def csC4 : CreationState := ⟨[], 0, 0⟩

/-! ## Task search: getPendingTasks and findTaskByDescription
(src/lib/redis.ts lines 84-121; identical copy in part_006 lines 116-154)

String containment is the contiguous-substring test of JS
String.prototype.includes, implemented on the character lists. -/

def charsPrefix : List Char → List Char → Bool
  | [], _ => true
  | _ :: _, [] => false
  | a :: as, b :: bs => a == b && charsPrefix as bs

def charsContains : List Char → List Char → Bool
  | [], needle => charsPrefix needle []
  | a :: t, needle => charsPrefix needle (a :: t) || charsContains t needle

def strIncludes (hay needle : String) : Bool := charsContains hay.data needle.data

/-- Character-wise lowercase, the model of JS toLowerCase. -/
def strToLower (s : String) : String := String.mk (s.data.map Char.toLower)

/-- The pending set for a chat: status-pending records sorted ascending by
nextReminder (the record index is an unordered set, so the pre-sort order
is arbitrary; the model quantifies over it). -/
def getPendingTasks (store : List Task) : List Task :=
  List.insertionSort (fun a b => a.nextReminder ≤ b.nextReminder)
    (store.filter (fun t => t.status == .pending))

/-- The fuzzy-match test of the source: either lowercased string contains
the other. -/
def fuzzyMatches (normalizedDesc : String) (t : Task) : Bool :=
  strIncludes (strToLower t.content) normalizedDesc ||
    strIncludes normalizedDesc (strToLower t.content)

/-- findTaskByDescription (src/lib/redis.ts lines 101-121): empty pending
set means none; a missing or empty description returns the last pending
task in sort order; otherwise the first bidirectional lowercase-substring
match, falling back to the last pending task. -/
def findTaskByDescription (store : List Task) (description : Option String) :
    Option Task :=
  let tasks := getPendingTasks store
  if tasks.isEmpty then
    none
  else if description.getD "" = "" then
    tasks.getLast?
  else
    match tasks.find? (fuzzyMatches (strToLower (description.getD ""))) with
    | some t => some t
    | none => tasks.getLast?

/-! The claimed matching algorithm, for comparison: the claim (and the
architecture document) describe a normalization that strips scheduling
metadata before matching.  No such normalization exists in the provided
findTaskByDescription sources. -/

def normalizeApostrophe (c : Char) : Char :=
  if c = '’' then Char.ofNat 39 else c

def removeParenGroups : List Char → Nat → List Char
  | [], _ => []
  | c :: rest, depth =>
    if c = '(' then removeParenGroups rest (depth + 1)
    else if c = ')' then removeParenGroups rest (depth - 1)
    else if depth = 0 then c :: removeParenGroups rest depth
    else removeParenGroups rest depth

def normalizeWhitespace (l : List Char) : List Char :=
  List.intercalate [' '] ((l.splitOn ' ').filter (fun w => ¬ w.isEmpty))

/-- Modelled from the spec: the claimed normalization — strip
scheduling-metadata substrings (at-sign day/time tags, which run to the
end of the displayed entry, and parenthetical annotations), lowercase,
normalize apostrophes and whitespace. -/
def normalizeDescription (s : String) : String :=
  let noTag := s.data.takeWhile (fun c => ¬ c = '@')
  let noParen := removeParenGroups noTag 0
  let lowered := noParen.map (fun c => (normalizeApostrophe c).toLower)
  String.mk (normalizeWhitespace lowered)

/-- The matching algorithm as the claim states it, for the refinement
comparison with the source function. -/
def findTaskByDescriptionClaim (store : List Task)
    (description : Option String) : Option Task :=
  let tasks := getPendingTasks store
  if tasks.isEmpty then
    none
  else if description.getD "" = "" then
    tasks.getLast?
  else
    let nd := normalizeDescription (description.getD "")
    match tasks.find? (fun t =>
        strIncludes (normalizeDescription t.content) nd ||
        strIncludes nd (normalizeDescription t.content)) with
    | some t => some t
    | none => tasks.getLast?

def taskDentist : Task :=
  ⟨"a1", 9, "call dentist @tuesday 3:00 PM", false, false, 0, 100, none, 0, .pending⟩

def taskMilk : Task :=
  ⟨"a2", 9, "buy milk", false, false, 0, 200, none, 0, .pending⟩

instance : IsTotal Task (fun a b : Task => a.nextReminder ≤ b.nextReminder) :=
  ⟨fun a b => le_total a.nextReminder b.nextReminder⟩

instance : IsTrans Task (fun a b : Task => a.nextReminder ≤ b.nextReminder) :=
  ⟨fun _ _ _ h1 h2 => le_trans h1 h2⟩

/-! ## Theorems for the claims -/

/-! ## Theorems for claims C2 and C9 -/

/-- C2: for every naggingLevel and both values of isImportant, the computed
nag delay equals round of the base ladder entry at index min(level, 4) times
0.5 for important tasks and 1 otherwise; in particular the important ladder
at levels 0..4 is [30, 60, 120, 180, 240] minutes and the non-important
ladder is [60, 120, 240, 360, 480]. -/
theorem calculateNextNagDelay_spec :
    (∀ (l : Nat) (imp : Bool),
      calculateNextNagDelay l imp =
        round ((([60, 120, 240, 360, 480].getD (min l 4) 0 : Nat) : ℚ) *
          (if imp then (1 : ℚ)/2 else 1)))
    ∧ (List.range 5).map (fun l => calculateNextNagDelay l true)
        = [30, 60, 120, 180, 240]
    ∧ (List.range 5).map (fun l => calculateNextNagDelay l false)
        = [60, 120, 240, 360, 480] := by
  refine ⟨fun l imp => ?_, ?_, ?_⟩
  · rfl
  · show [calculateNextNagDelay 0 true, calculateNextNagDelay 1 true,
      calculateNextNagDelay 2 true, calculateNextNagDelay 3 true,
      calculateNextNagDelay 4 true] = [30, 60, 120, 180, 240]
    simp only [calculateNextNagDelay, nagBaseDelays]
    norm_num [round_eq]
  · show [calculateNextNagDelay 0 false, calculateNextNagDelay 1 false,
      calculateNextNagDelay 2 false, calculateNextNagDelay 3 false,
      calculateNextNagDelay 4 false] = [60, 120, 240, 360, 480]
    simp only [calculateNextNagDelay, nagBaseDelays]
    norm_num [round_eq]

/-- C9: the webhook attempts signature verification only when the
upstash-signature header is present: with the header absent the request is
processed with no verification at all; and even with the header present,
verifySignature accepts whenever either signing-key environment variable is
unset, so the request is processed. -/
theorem notifyGate_spec :
    (∀ currentKey nextKey receiverAccepts,
      notifyGate none currentKey nextKey receiverAccepts = .processed false)
    ∧ (∀ currentKey nextKey receiverAccepts,
        (currentKey = none ∨ nextKey = none) →
          verifySignature currentKey nextKey receiverAccepts = true)
    ∧ (∀ sig currentKey nextKey receiverAccepts,
        sig ≠ "" → (currentKey = none ∨ nextKey = none) →
          notifyGate (some sig) currentKey nextKey receiverAccepts
            = .processed true) := by
  refine ⟨fun _ _ _ => rfl, ?_, ?_⟩
  · rintro ck nk ra (rfl | rfl) <;>
      simp [verifySignature, strFalsy]
  · rintro sig ck nk ra hsig hunset
    have hv : verifySignature ck nk ra = true := by
      rcases hunset with rfl | rfl <;> simp [verifySignature, strFalsy]
    have hs : strFalsy (some sig) = false := by
      simp [strFalsy, hsig]
    simp [notifyGate, hs, hv]

/-- Witness for C9 at concrete inputs: header present, current key unset. -/
theorem notifyGate_spec_witness :
    notifyGate (some "sig") none (some "k2") true = .processed true :=
  notifyGate_spec.2.2 "sig" none (some "k2") true (by decide) (Or.inl rfl)

lemma calculateNextNagDelay_zero_true : calculateNextNagDelay 0 true = 30 := by
  norm_num [calculateNextNagDelay, nagBaseDelays, round_eq]

/-- C1: delivering a reminder or nag callback whose task record is absent or
no longer pending sends no message, schedules nothing, mutates no task
state, and still answers HTTP 200; hence a redelivery of the same callback
after the task was completed is a silent no-op both times. -/
theorem delivery_noop_when_absent_or_completed
    (now : Int) (sfOk : Bool) (ty : NotifyType) (chatId : Int) (taskId : String)
    (st : ChatState)
    (hty : ty = .reminder ∨ ty = .nag)
    (hab : noActionableTask st.task? = true) :
    notifyHandler now sfOk ty chatId taskId st = (st, [], 200) ∧
    notifyHandler now sfOk ty chatId taskId
        (notifyHandler now sfOk ty chatId taskId st).1 = (st, [], 200) := by
  have h1 : notifyHandler now sfOk ty chatId taskId st = (st, [], 200) := by
    rcases hty with rfl | rfl <;>
    · cases hst : st.task? with
      | none => simp [notifyHandler, handleReminder, handleNag, hst]
      | some t =>
        have hc : t.status = .completed := by
          simpa [noActionableTask, hst] using hab
        simp [notifyHandler, handleReminder, handleNag, hst, hc]
  refine ⟨h1, ?_⟩
  rw [h1]
  exact h1

/-- Witness for C1: a completed task, delivered twice. -/
theorem delivery_noop_witness :
    notifyHandler 1000 true .reminder 1 "t1" stC1 = (stC1, [], 200) ∧
    notifyHandler 1000 true .reminder 1 "t1"
        (notifyHandler 1000 true .reminder 1 "t1" stC1).1 = (stC1, [], 200) :=
  delivery_noop_when_absent_or_completed 1000 true .reminder 1 "t1" stC1
    (Or.inl rfl) (by decide)

/-- C3: a nag delivery for a still-pending task whose naggingLevel has
reached the cap of 5 sends the level-parameterized nag text and the distinct
final-nag text, schedules no further nag, and leaves the stored task state
(naggingLevel, nextReminder, qstashMessageId, pending status) unchanged. -/
theorem nag_cap_final (now : Int) (chatId : Int) (taskId : String)
    (st : ChatState) (task : Task) (ht : st.task? = some task)
    (hp : task.status = .pending) (hl : 5 ≤ task.naggingLevel) :
    handleNag now chatId taskId st =
      (st, [.sendMsg chatId (.nagText task.content task.naggingLevel),
            .sendMsg chatId (.finalNagText task.content)]) := by
  have hnc : ¬ task.status = .completed := by
    rw [hp]
    intro h
    cases h
  have hnl : ¬ task.naggingLevel < 5 := by omega
  simp [handleNag, ht, hnc, hnl]

/-- Witness for C3 at the cap. -/
theorem nag_cap_final_witness :
    handleNag 0 2 "t3" stC3 =
      (stC3, [.sendMsg 2 (.nagText "call mom" 5),
              .sendMsg 2 (.finalNagText "call mom")]) :=
  nag_cap_final 0 2 "t3" stC3 taskCapC3 rfl rfl (by decide)

/-- C10: a reminder delivery on a still-pending important task
unconditionally resets naggingLevel to 1 regardless of its current value,
schedules a fresh nag at the level-0 important delay of 30 minutes and a
fresh follow-up; consequently a duplicate delivery of the initial reminder
is not a no-op: it sends again, restarts the ladder at level 1 and creates
an additional outstanding follow-up. -/
theorem reminder_restarts_ladder (now : Int) (chatId : Int) (taskId : String)
    (st : ChatState) (task : Task) (ht : st.task? = some task)
    (hp : task.status = .pending) (himp : task.isImportant = true) :
    handleReminder now true chatId taskId st =
      ({ st with
          task? := some { task with
            naggingLevel := 1
            nextReminder := now + 30 * 60000
            qstashMessageId := some (st.nextId + 1) }
          pendingFollowUp := some ⟨taskId, task.content, some st.nextId⟩
          nextId := st.nextId + 2 },
       [.sendMsg chatId (.reminderText task.content),
        .scheduleFollowUpCall chatId taskId st.nextId,
        .scheduleCallback chatId taskId 30 true (st.nextId + 1)]) ∧
    (handleReminder now true chatId taskId
        (handleReminder now true chatId taskId st).1).2 =
      [.sendMsg chatId (.reminderText task.content),
       .scheduleFollowUpCall chatId taskId (st.nextId + 2),
       .scheduleCallback chatId taskId 30 true (st.nextId + 3)] := by
  have key : ∀ (s : ChatState) (tk : Task), s.task? = some tk →
      tk.status = .pending → tk.isImportant = true →
      handleReminder now true chatId taskId s =
        ({ s with
            task? := some { tk with
              naggingLevel := 1
              nextReminder := now + 30 * 60000
              qstashMessageId := some (s.nextId + 1) }
            pendingFollowUp := some ⟨taskId, tk.content, some s.nextId⟩
            nextId := s.nextId + 2 },
         [.sendMsg chatId (.reminderText tk.content),
          .scheduleFollowUpCall chatId taskId s.nextId,
          .scheduleCallback chatId taskId 30 true (s.nextId + 1)]) := by
    intro s tk hs hp' himp'
    have hnc : ¬ tk.status = .completed := by
      rw [hp']
      intro h
      cases h
    obtain ⟨stask, spfu, snid⟩ := s
    simp only [Option.some.injEq] at hs
    simp [handleReminder, setPendingFollowUp, hs, hnc, himp',
      calculateNextNagDelay_zero_true]
  have h1 := key st task ht hp himp
  refine ⟨h1, ?_⟩
  rw [h1]
  have h2 := key
    { st with
        task? := some { task with
          naggingLevel := 1
          nextReminder := now + 30 * 60000
          qstashMessageId := some (st.nextId + 1) }
        pendingFollowUp := some ⟨taskId, task.content, some st.nextId⟩
        nextId := st.nextId + 2 }
    { task with
        naggingLevel := 1
        nextReminder := now + 30 * 60000
        qstashMessageId := some (st.nextId + 1) }
    rfl hp himp
  rw [h2]

/-- Witness for C10: a pending important task already at naggingLevel 3. -/
theorem reminder_restarts_ladder_witness :
    handleReminder 1000 true 4 "t10" stC10 =
      ({ stC10 with
          task? := some { taskImpC10 with
            naggingLevel := 1
            nextReminder := 1000 + 30 * 60000
            qstashMessageId := some 7 }
          pendingFollowUp := some ⟨"t10", "send report", some 6⟩
          nextId := 8 },
       [.sendMsg 4 (.reminderText "send report"),
        .scheduleFollowUpCall 4 "t10" 6,
        .scheduleCallback 4 "t10" 30 true 7]) ∧
    (handleReminder 1000 true 4 "t10"
        (handleReminder 1000 true 4 "t10" stC10).1).2 =
      [.sendMsg 4 (.reminderText "send report"),
       .scheduleFollowUpCall 4 "t10" 8,
       .scheduleCallback 4 "t10" 30 true 9] :=
  reminder_restarts_ladder 1000 4 "t10" stC10 taskImpC10 rfl rfl rfl

/-- Counterexample to C5 as stated: the PendingFollowUp record is present
and references exactly the delivered taskId, yet no follow-up message is
sent, because the task was completed in the meantime — the source has a
task-status guard the claim omits (src/api/notify.ts lines 423-428). -/
theorem handleFollowUp_claim_counterexample :
    getPendingFollowUp stC5 = some ⟨"t1", "water plants", some 7⟩ ∧
    stC5.task? = some taskDoneC5 ∧ taskDoneC5.status = .completed ∧
    handleFollowUp 1 "t1" stC5 = ({ stC5 with pendingFollowUp := none }, []) := by
  refine ⟨rfl, rfl, rfl, ?_⟩
  decide

/-- C5 amended: a follow-up delivery sends nothing when the record is
missing or references a different task; when the record matches and the
task is still pending it sends the follow-up text and deletes the record;
when the record matches but the task is absent or completed it deletes the
record and sends nothing; any inbound user message clears the record first,
so a later follow-up delivery sends nothing; and a redelivery directly
after any follow-up delivery sends nothing, so at most one follow-up is
delivered per reminder. -/
theorem followUp_delivery_guarded (chatId : Int) (taskId : String)
    (st : ChatState) :
    ((∀ p, st.pendingFollowUp = some p → p.taskId ≠ taskId) →
        handleFollowUp chatId taskId st = (st, []))
    ∧ (∀ p task, st.pendingFollowUp = some p → p.taskId = taskId →
        st.task? = some task → task.status = .pending →
        handleFollowUp chatId taskId st =
          ({ st with pendingFollowUp := none },
           [.sendMsg chatId (.followUpText task.content)]))
    ∧ (∀ p, st.pendingFollowUp = some p → p.taskId = taskId →
        noActionableTask st.task? = true →
        handleFollowUp chatId taskId st = ({ st with pendingFollowUp := none }, []))
    ∧ handleFollowUp chatId taskId (userMessageFollowUpCancel st).1
        = ((userMessageFollowUpCancel st).1, [])
    ∧ (handleFollowUp chatId taskId (handleFollowUp chatId taskId st).1).2 = [] := by
  have hnone : ∀ s : ChatState, s.pendingFollowUp = none →
      handleFollowUp chatId taskId s = (s, []) := by
    intro s hs
    simp [handleFollowUp, getPendingFollowUp, hs]
  refine ⟨?_, ?_, ?_, ?_, ?_⟩
  · intro hmis
    cases hp : st.pendingFollowUp with
    | none => exact hnone st hp
    | some p =>
      have hne := hmis p hp
      simp [handleFollowUp, getPendingFollowUp, hp, hne]
  · intro p task hp hid hta hpend
    have hnc : ¬ task.status = .completed := by
      rw [hpend]
      intro h
      cases h
    simp [handleFollowUp, getPendingFollowUp, clearPendingFollowUp, hp, hid,
      hta, hnc]
  · intro p hp hid hna
    cases hta : st.task? with
    | none =>
      simp [handleFollowUp, getPendingFollowUp, clearPendingFollowUp, hp, hid, hta]
    | some t =>
      have hc : t.status = .completed := by
        simpa [noActionableTask, hta] using hna
      simp [handleFollowUp, getPendingFollowUp, clearPendingFollowUp, hp, hid,
        hta, hc]
  · have hcleared : (userMessageFollowUpCancel st).1.pendingFollowUp = none := by
      cases hp : st.pendingFollowUp with
      | none => simp [userMessageFollowUpCancel, clearPendingFollowUp, hp]
      | some p =>
        cases hq : p.qstashMessageId <;>
          simp [userMessageFollowUpCancel, clearPendingFollowUp, hp, hq]
    exact hnone _ hcleared
  · cases hp : st.pendingFollowUp with
    | none =>
      rw [hnone st hp]
      rw [hnone st hp]
    | some p =>
      by_cases hid : p.taskId = taskId
      · have hclear : (handleFollowUp chatId taskId st).1.pendingFollowUp = none := by
          cases hta : st.task? with
          | none =>
            simp [handleFollowUp, getPendingFollowUp, clearPendingFollowUp, hp,
              hid, hta]
          | some t =>
            cases hc : t.status <;>
              simp [handleFollowUp, getPendingFollowUp, clearPendingFollowUp,
                hp, hid, hta, hc]
        rw [hnone _ hclear]
      · have hfirst : handleFollowUp chatId taskId st = (st, []) := by
          simp [handleFollowUp, getPendingFollowUp, hp, hid]
        rw [hfirst, hfirst]

/-- Witness for the amended C5: matching record and a still-pending task,
follow-up sent exactly once and the record deleted. -/
theorem followUp_delivery_guarded_witness :
    handleFollowUp 1 "t1" stC5b =
      ({ stC5b with pendingFollowUp := none },
       [.sendMsg 1 (.followUpText "water plants")]) :=
  (followUp_delivery_guarded 1 "t1" stC5b).2.1 ⟨"t1", "water plants", some 7⟩
    taskPendC5 rfl rfl rfl rfl

lemma localHour_on_hour (o day : Int) (ho : Nat) :
    localHour o (day * 86400000 + (ho : Int) * 3600000)
      = ((ho : Int) + o / 3600000) % 24 := by
  unfold localHour
  omega

lemma noonFind_eq (q : Int) (h1 : -11 ≤ q) (h2 : q ≤ 12) :
    (List.range 36).find? (fun (ho : Nat) => (((ho : Int) + q) % 24 == 12))
      = some (12 - q).toNat := by
  interval_cases q <;> decide

lemma normalizeToNoon_eq (o now d : Int) (h1 : -11 ≤ o / 3600000)
    (h2 : o / 3600000 ≤ 12) :
    normalizeToNoon o now d
      = localDay o (now + d * 60000) * 86400000 + (12 - o / 3600000) * 3600000 := by
  have hpred : (fun hourOffset : Nat =>
      localHour o (localDay o (now + d * 60000) * 86400000
        + (hourOffset : Int) * 3600000) == 12)
      = (fun hourOffset : Nat => (((hourOffset : Int) + o / 3600000) % 24 == 12)) := by
    funext ho
    rw [localHour_on_hour]
  have hcast : (((12 - o / 3600000).toNat : Int)) = 12 - o / 3600000 :=
    Int.toNat_of_nonneg (by omega)
  unfold normalizeToNoon
  simp only [hpred]
  rw [noonFind_eq (o / 3600000) h1 h2]
  simp only [hcast]

/-- C6: with the configured timezone modelled as a fixed UTC offset whose
whole-hour part lies in [-11, 12] (covering the default
America/Los_Angeles), any two rough delays landing on the same local
calendar day normalize to the identical instant, and that instant has local
hour 12 on that same calendar day — obtained by the candidate-hour scan,
not fixed UTC arithmetic. -/
theorem normalizeToNoon_stable (o now d1 d2 : Int)
    (h1 : -11 ≤ o / 3600000) (h2 : o / 3600000 ≤ 12)
    (hday : localDay o (now + d1 * 60000) = localDay o (now + d2 * 60000)) :
    normalizeToNoon o now d1 = normalizeToNoon o now d2 ∧
    localHour o (normalizeToNoon o now d1) = 12 ∧
    localDay o (normalizeToNoon o now d1) = localDay o (now + d1 * 60000) := by
  have e1 := normalizeToNoon_eq o now d1 h1 h2
  have e2 := normalizeToNoon_eq o now d2 h1 h2
  refine ⟨by rw [e1, e2, hday], ?_, ?_⟩
  · rw [e1]
    unfold localHour localDay
    omega
  · rw [e1]
    unfold localDay
    omega

/-- Witness for C6: offset -8h (America/Los_Angeles standard time), two
delays one hour apart on the same local day. -/
theorem normalizeToNoon_stable_witness :
    normalizeToNoon (-28800000) 0 0 = normalizeToNoon (-28800000) 0 60 ∧
    localHour (-28800000) (normalizeToNoon (-28800000) 0 0) = 12 ∧
    localDay (-28800000) (normalizeToNoon (-28800000) 0 0)
      = localDay (-28800000) (0 + 0 * 60000) :=
  normalizeToNoon_stable (-28800000) 0 0 60 (by decide) (by decide) (by decide)

/-- C4: a reminder created with isDayOnly true schedules no external
one-shot callback, and the created record has no qstashMessageId — a
day-only task never acquires one through the creation path. -/
theorem dayOnly_never_scheduled (now o : Int) (schedOk : Bool) (chatId : Int)
    (r : ReminderReq) (hr : r.isDayOnly = some true) (cs : CreationState) :
    (processReminder now o schedOk chatId r cs).2.1 = [] ∧
    ∃ task : Task,
      (processReminder now o schedOk chatId r cs).1.store = cs.store ++ [task] ∧
      task.qstashMessageId = none ∧ task.isDayOnly = true ∧
      task.status = .pending := by
  refine ⟨?_, ?_⟩
  · simp [processReminder, createTask, hr]
  · refine ⟨⟨"t" ++ toString cs.nextTaskNum, chatId, r.task, r.isImportant,
      true, 0,
      now + jsRound (normalizeToNoon o now r.delayMinutes - now) 60000 * 60000,
      none, now, .pending⟩, ?_, rfl, rfl, rfl⟩
    simp [processReminder, createTask, hr]

/-- Witness for C4 with a concrete day-only request. -/
theorem dayOnly_never_scheduled_witness :
    (processReminder 0 (-28800000) true 9 reqDayOnlyC4 csC4).2.1 = [] ∧
    ∃ task : Task,
      (processReminder 0 (-28800000) true 9 reqDayOnlyC4 csC4).1.store
        = csC4.store ++ [task] ∧
      task.qstashMessageId = none ∧ task.isDayOnly = true ∧
      task.status = .pending :=
  dayOnly_never_scheduled 0 (-28800000) true 9 reqDayOnlyC4 rfl csC4

/-- C8: when the external scheduling call throws, the created task record
is already persisted and remains stored with pending status, and the
creation flow still reports the reminder as created — degraded to no
notification, not a failed request. -/
theorem scheduling_failure_keeps_task (now o : Int) (chatId : Int)
    (r : ReminderReq) (cs : CreationState) :
    (∃ task : Task,
      (handleReminders now o false chatId [r] cs).1.store = cs.store ++ [task] ∧
      task.status = .pending ∧ task.content = r.task) ∧
    (∃ e : CreatedEntry,
      (handleReminders now o false chatId [r] cs).2.2 = .reminderCreated e ∧
      e.task = r.task) := by
  cases hd : r.isDayOnly.getD false <;>
    simp [handleReminders, handleRemindersGo, processReminder, createTask, hd]

/-- Counterexample to C7 as stated: under the claimed metadata-stripping
normalization the query matches the dentist task, but the source function
only lowercases, finds no substring match, and falls back to the last
pending task — a different task. -/
theorem findTaskByDescription_claim_counterexample :
    findTaskByDescription [taskDentist, taskMilk] (some "call dentist now")
      = some taskMilk ∧
    findTaskByDescriptionClaim [taskDentist, taskMilk] (some "call dentist now")
      = some taskDentist ∧
    taskMilk ≠ taskDentist := by
  refine ⟨?_, ?_, by decide⟩ <;> decide

lemma mem_of_getLast?_some {l : List Task} {a : Task}
    (h : l.getLast? = some a) : a ∈ l := by
  obtain ⟨hne, hx⟩ := List.mem_getLast?_eq_getLast (l := l) (x := a) h
  rw [hx]
  exact List.getLast_mem hne

lemma sorted_getLast?_max {l : List Task}
    (h : List.Sorted (fun a b : Task => a.nextReminder ≤ b.nextReminder) l)
    {t : Task} (ht : l.getLast? = some t) :
    ∀ x ∈ l, x.nextReminder ≤ t.nextReminder := by
  induction l with
  | nil => simp at ht
  | cons a l ih =>
    intro x hx
    cases l with
    | nil =>
      simp at ht hx
      rw [hx, ht]
    | cons b l' =>
      rw [List.getLast?_cons_cons] at ht
      rcases List.mem_cons.1 hx with rfl | hx'
      · exact List.rel_of_sorted_cons h t (mem_of_getLast?_some ht)
      · exact ih (List.Sorted.of_cons h) ht x hx'

lemma getPendingTasks_sorted (store : List Task) :
    List.Sorted (fun a b : Task => a.nextReminder ≤ b.nextReminder)
      (getPendingTasks store) :=
  List.sorted_insertionSort _ _

lemma getPendingTasks_last_max (store : List Task) {t : Task}
    (ht : (getPendingTasks store).getLast? = some t) :
    ∀ x ∈ getPendingTasks store, x.nextReminder ≤ t.nextReminder :=
  sorted_getLast?_max (getPendingTasks_sorted store) ht

/-- C7 amended: findTaskByDescription returns none exactly when the pending
set is empty; with no (or an empty) description it returns the pending task
with the furthest-future nextReminder; with a description it lowercases
both sides and returns the first pending task such that either lowercased
string contains the other as a substring — no scheduling-metadata
stripping and no apostrophe or whitespace normalization take place — and
when nothing matches it falls back to the same furthest-future default. -/
theorem findTaskByDescription_amended (store : List Task) (d : String)
    (hd : d ≠ "") :
    (∀ des, findTaskByDescription store des = none ↔ getPendingTasks store = [])
    ∧ (getPendingTasks store ≠ [] →
        ∃ t, findTaskByDescription store none = some t ∧
          t ∈ getPendingTasks store ∧
          ∀ u ∈ getPendingTasks store, u.nextReminder ≤ t.nextReminder)
    ∧ (∀ t, (getPendingTasks store).find? (fuzzyMatches (strToLower d)) = some t →
        findTaskByDescription store (some d) = some t)
    ∧ ((getPendingTasks store).find? (fuzzyMatches (strToLower d)) = none →
        getPendingTasks store ≠ [] →
        ∃ t, findTaskByDescription store (some d) = some t ∧
          t ∈ getPendingTasks store ∧
          ∀ u ∈ getPendingTasks store, u.nextReminder ≤ t.nextReminder) := by
  refine ⟨?_, ?_, ?_, ?_⟩
  · intro des
    by_cases hts : getPendingTasks store = []
    · simp [findTaskByDescription, hts]
    · obtain ⟨tl, hlast⟩ : ∃ tl, (getPendingTasks store).getLast? = some tl :=
        ⟨_, List.getLast?_eq_getLast_of_ne_nil hts⟩
      have hne : (getPendingTasks store).isEmpty = false := by
        simpa [List.isEmpty_iff] using hts
      constructor
      · intro hnone
        exfalso
        by_cases hdes : des.getD "" = ""
        · rw [findTaskByDescription] at hnone
          simp [hne, hdes, hlast] at hnone
        · rw [findTaskByDescription] at hnone
          simp only [hne, Bool.false_eq_true, if_false, hdes, if_neg] at hnone
          cases hfind : (getPendingTasks store).find?
              (fuzzyMatches (strToLower (des.getD ""))) with
          | none => simp [hfind, hlast] at hnone
          | some t => simp [hfind] at hnone
      · intro h
        exact absurd h hts
  · intro hts
    obtain ⟨tl, hlast⟩ : ∃ tl, (getPendingTasks store).getLast? = some tl :=
      ⟨_, List.getLast?_eq_getLast_of_ne_nil hts⟩
    have hne : (getPendingTasks store).isEmpty = false := by
      simpa [List.isEmpty_iff] using hts
    refine ⟨tl, ?_, mem_of_getLast?_some hlast, getPendingTasks_last_max store hlast⟩
    simp [findTaskByDescription, hne, hlast]
  · intro t hfind
    have hts : getPendingTasks store ≠ [] := by
      intro h
      rw [h] at hfind
      simp at hfind
    have hne : (getPendingTasks store).isEmpty = false := by
      simpa [List.isEmpty_iff] using hts
    simp [findTaskByDescription, hne, hd, hfind]
  · intro hfind hts
    obtain ⟨tl, hlast⟩ : ∃ tl, (getPendingTasks store).getLast? = some tl :=
      ⟨_, List.getLast?_eq_getLast_of_ne_nil hts⟩
    have hne : (getPendingTasks store).isEmpty = false := by
      simpa [List.isEmpty_iff] using hts
    refine ⟨tl, ?_, mem_of_getLast?_some hlast, getPendingTasks_last_max store hlast⟩
    simp [findTaskByDescription, hne, hd, hfind, hlast]

/-- Witness for the amended C7: the no-match query falls back to the
pending task with the furthest-future reminder. -/
theorem findTaskByDescription_amended_witness :
    ∃ t, findTaskByDescription [taskDentist, taskMilk] (some "call dentist now")
        = some t ∧
      t ∈ getPendingTasks [taskDentist, taskMilk] ∧
      ∀ u ∈ getPendingTasks [taskDentist, taskMilk],
        u.nextReminder ≤ t.nextReminder :=
  (findTaskByDescription_amended [taskDentist, taskMilk] "call dentist now"
    (by decide)).2.2.2 (by decide) (by decide)

end TgBot

